import Mathlib

/-
Verification of the pokedexcli persistence core: the durable store
(pokedex_storage.go), the auto-save policy (pokedex_utils.go,
command_autosave.go, command_release.go) and the response cache
(internal/pokecache/pokecache.go), shallowly embedded in Lean 4.

Modelling conventions:
  - Go time.Time instants are integers on an abstract timeline.
  - A Go []byte blob is a list of naturals.
  - encoding/json documents are the inductive Json tree below; marshalling
    a SaveData value is total (the Go type always marshals) and
    unmarshalling is matched structurally.
  - Go maps are association lists whose key list is duplicate-free.
  - The filesystem is a map from path to the complete JSON document the
    file holds; each effectful step of a save produces a new filesystem
    state and the list of those states is exposed as a trace.
  - External effects (flock acquisition, os.WriteFile, os.Rename outcomes
    and the clock) are inputs of the embedded functions.
-/

namespace Pokedexcli

/-- A JSON document tree, the self-describing structured format produced by
encoding/json. -/
inductive Json where
  | null : Json
  | bool (b : Bool) : Json
  | num (n : Int) : Json
  | str (s : String) : Json
  | arr (elems : List Json) : Json
  | obj (fields : List (String × Json)) : Json
deriving BEq, Repr

/-- First-match lookup in an association list, the read of a Go map. -/
def assocFind {β : Type} (l : List (String × β)) (k : String) : Option β :=
  match l with
  | [] => none
  | (k', v) :: rest => if k' = k then some v else assocFind rest k

/-- Overwriting insert in an association list, the write of a Go map: the
first binding of the key is replaced, otherwise the binding is appended. -/
def assocInsert {β : Type} (l : List (String × β)) (k : String) (v : β) :
    List (String × β) :=
  match l with
  | [] => [(k, v)]
  | (k', v') :: rest =>
      if k' = k then (k, v) :: rest else (k', v') :: assocInsert rest k v

/-- The in-memory Pokédex: map from canonical item name to the full fetched
record for that item, kept as an opaque JSON blob
(go: map[string]pokeapi.PokemonDataResp). -/
abbrev Pokedex := List (String × Json)

/-- SaveData (pokedex_storage.go): the structure of data saved to disk. -/
structure SaveData where
  pokedex : Pokedex
  lastSaved : Int
deriving BEq, Repr

/-- json.Marshal on SaveData: total for this Go type; produces the tagged
document with the two struct tags pokedex and lastSaved. -/
def jsonMarshalSaveData (d : SaveData) : Json :=
  Json.obj [("pokedex", Json.obj d.pokedex), ("lastSaved", Json.num d.lastSaved)]

/-- json.Unmarshal into SaveData: succeeds exactly on documents of the shape
json.Marshal produces, fails (DecodeError) on any other document. -/
def jsonUnmarshalSaveData (j : Json) : Option SaveData :=
  match j with
  | Json.obj [("pokedex", Json.obj p), ("lastSaved", Json.num t)] =>
      some { pokedex := p, lastSaved := t }
  | _ => none

/-- The application config struct (main.go): the guarded shared state. The
API client and the mutex value itself carry no persisted data and are not
modelled; the mutex discipline is reflected in the sequential structure of
the embedded operations. -/
structure Config where
  nextLocationURL : Option String
  prevLocationURL : Option String
  pokedex : Pokedex
  autoSaveEnabled : Bool
  autoSaveInterval : Int
  changesSinceSync : Int
  recentLocations : List (String × String)
  mapViewedThisSession : Bool
  debugMode : Bool
deriving BEq, Repr

/-- The filesystem: each path holds the complete document last written to
it, or nothing. -/
abbrev FileSys := String → Option Json

/-- os.WriteFile: the path now holds exactly the written document. -/
def fsWrite (fs : FileSys) (p : String) (v : Json) : FileSys :=
  fun q => if q = p then some v else fs q

/-- os.Remove. -/
def fsRemove (fs : FileSys) (p : String) : FileSys :=
  fun q => if q = p then none else fs q

/-- os.Rename: atomically moves the source content over the destination. -/
def fsRename (fs : FileSys) (src dst : String) : FileSys :=
  fun q => if q = dst then fs src else if q = src then none else fs q

/-- defaultSaveFile (pokedex_storage.go). -/
def defaultSaveFile : String := ".pokedexcli_save.json"

/-- lockTimeout, in milliseconds (go: 5 * time.Second). -/
def lockTimeout : Int := 5000

/-- lockRetryInterval, in milliseconds (go: 100 * time.Millisecond). -/
def lockRetryInterval : Int := 100

/-- getSaveFilePath: the home directory joined with the default file name,
falling back to the bare file name when the home directory is unknown;
this function never returns an error. -/
def getSaveFilePath (homeDir : Option String) : String :=
  match homeDir with
  | none => defaultSaveFile
  | some h => h ++ "/" ++ defaultSaveFile

/-- getLockFilePath: the lock file sits beside the save file. -/
def getLockFilePath (saveFilePath : String) : String :=
  saveFilePath ++ ".lock"

/-- Error values surfaced by savePokedexData, one per return path. -/
inductive SaveError where
  | lockFailed : SaveError
  | lockTimeout : SaveError
  | writeFailed : SaveError
  | renameFailed : SaveError
deriving BEq, Repr, DecidableEq

/-- Outcomes of the external effects a save performs: the home directory
lookup, the flock acquisition, the clock, and the two filesystem calls.
When os.WriteFile fails it may leave arbitrary partial bytes in the
temporary file, given by failedWriteTmp. -/
structure SaveEnv where
  homeDir : Option String
  lockErr : Bool
  lockAcquired : Bool
  now : Int
  writeOk : Bool
  failedWriteTmp : Option Json
  renameOk : Bool

/-- Result of a savePokedexData call: the in-memory config after the call,
the filesystem after each effectful step in order, the final filesystem,
whether the flock is still held at return, and the returned error. -/
structure SaveOutcome where
  cfg : Config
  fsTrace : List FileSys
  fs : FileSys
  lockHeldOnReturn : Bool
  result : Option SaveError

/-- savePokedexData (pokedex_storage.go): acquire the exclusive flock on
the sidecar lock path with a bounded wait, snapshot the Pokédex under the
read lock, marshal it, write the bytes to the co-located temporary file,
atomically rename it over the save path, and release the flock on every
return path (the Go defer). The config is only read, never written. -/
def savePokedexData (env : SaveEnv) (cfg : Config) (fs : FileSys) : SaveOutcome :=
  let saveFilePath := getSaveFilePath env.homeDir
  if env.lockErr then
    { cfg := cfg, fsTrace := [], fs := fs, lockHeldOnReturn := false,
      result := some SaveError.lockFailed }
  else if !env.lockAcquired then
    { cfg := cfg, fsTrace := [], fs := fs, lockHeldOnReturn := false,
      result := some SaveError.lockTimeout }
  else
    let saveData : SaveData := { pokedex := cfg.pokedex, lastSaved := env.now }
    let data := jsonMarshalSaveData saveData
    let tempFilePath := saveFilePath ++ ".tmp"
    if env.writeOk then
      let fs1 := fsWrite fs tempFilePath data
      if env.renameOk then
        let fs2 := fsRename fs1 tempFilePath saveFilePath
        { cfg := cfg, fsTrace := [fs1, fs2], fs := fs2,
          lockHeldOnReturn := false, result := none }
      else
        let fs2 := fsRemove fs1 tempFilePath
        { cfg := cfg, fsTrace := [fs1, fs2], fs := fs2,
          lockHeldOnReturn := false, result := some SaveError.renameFailed }
    else
      let fs1 := match env.failedWriteTmp with
        | some partialContent => fsWrite fs tempFilePath partialContent
        | none => fs
      { cfg := cfg, fsTrace := [fs1], fs := fs1,
        lockHeldOnReturn := false, result := some SaveError.writeFailed }

/-- Error values surfaced by loadPokedexData, one per return path. -/
inductive LoadError where
  | lockFailed : LoadError
  | lockTimeout : LoadError
  | readFailed : LoadError
  | decodeFailed : LoadError
deriving BEq, Repr, DecidableEq

/-- Outcomes of the external effects a load performs. -/
structure LoadEnv where
  homeDir : Option String
  lockErr : Bool
  lockAcquired : Bool
  readOk : Bool

/-- Result of a loadPokedexData call. A load never writes the filesystem. -/
structure LoadOutcome where
  cfg : Config
  lockHeldOnReturn : Bool
  result : Option LoadError

/-- loadPokedexData (pokedex_storage.go): if the save file does not exist,
return success without touching anything; otherwise acquire the shared
flock with a bounded wait, read the file, unmarshal it, and under the
write lock replace the Pokédex with the decoded map and clear the map
navigation state. The flock is released on every return path. -/
def loadPokedexData (env : LoadEnv) (cfg : Config) (fs : FileSys) : LoadOutcome :=
  let saveFilePath := getSaveFilePath env.homeDir
  match fs saveFilePath with
  | none =>
      { cfg := cfg, lockHeldOnReturn := false, result := none }
  | some content =>
      if env.lockErr then
        { cfg := cfg, lockHeldOnReturn := false,
          result := some LoadError.lockFailed }
      else if !env.lockAcquired then
        { cfg := cfg, lockHeldOnReturn := false,
          result := some LoadError.lockTimeout }
      else if !env.readOk then
        { cfg := cfg, lockHeldOnReturn := false,
          result := some LoadError.readFailed }
      else
        match jsonUnmarshalSaveData content with
        | none =>
            { cfg := cfg, lockHeldOnReturn := false,
              result := some LoadError.decodeFailed }
        | some saveData =>
            { cfg := { cfg with
                pokedex := saveData.pokedex,
                nextLocationURL := none,
                prevLocationURL := none,
                mapViewedThisSession := false },
              lockHeldOnReturn := false, result := none }

/-- Result of an auto-save policy step: the config and filesystem after the
step, how many times savePokedexData was invoked during it, and the
returned error. -/
structure PolicyOutcome where
  cfg : Config
  fs : FileSys
  saveCalls : Nat
  result : Option SaveError

/-- autoSaveIfEnabled (command_autosave.go): call savePokedexData exactly
when auto-save is enabled, otherwise do nothing and return nil. -/
def autoSaveIfEnabled (env : SaveEnv) (cfg : Config) (fs : FileSys) :
    PolicyOutcome :=
  if cfg.autoSaveEnabled then
    let out := savePokedexData env cfg fs
    { cfg := out.cfg, fs := out.fs, saveCalls := 1, result := out.result }
  else
    { cfg := cfg, fs := fs, saveCalls := 0, result := none }

/-- UpdatePokedexAndSave (pokedex_utils.go): under the write lock, increment
changesSinceSync; if it reached autoSaveInterval, reset it to zero; then,
outside the lock, call autoSaveIfEnabled exactly when the threshold was
reached, wrapping any error. -/
def UpdatePokedexAndSave (env : SaveEnv) (cfg : Config) (fs : FileSys) :
    PolicyOutcome :=
  let changes := cfg.changesSinceSync + 1
  let shouldSave := changes ≥ cfg.autoSaveInterval
  let cfg1 := { cfg with changesSinceSync := if shouldSave then 0 else changes }
  if shouldSave then
    autoSaveIfEnabled env cfg1 fs
  else
    { cfg := cfg1, fs := fs, saveCalls := 0, result := none }

/-- The auto-save epilogue of commandRelease (command_release.go, the block
after the deletion): increment changesSinceSync; if it reached
autoSaveInterval, call autoSaveIfEnabled, return the wrapped error when it
fails, and reset the counter to zero only when it did not fail. -/
def commandReleaseAutoSaveBlock (env : SaveEnv) (cfg : Config) (fs : FileSys) :
    PolicyOutcome :=
  let cfg1 := { cfg with changesSinceSync := cfg.changesSinceSync + 1 }
  if cfg1.changesSinceSync ≥ cfg1.autoSaveInterval then
    let out := autoSaveIfEnabled env cfg1 fs
    match out.result with
    | some e =>
        { cfg := out.cfg, fs := out.fs, saveCalls := out.saveCalls,
          result := some e }
    | none =>
        { cfg := { out.cfg with changesSinceSync := 0 }, fs := out.fs,
          saveCalls := out.saveCalls, result := none }
  else
    { cfg := cfg1, fs := fs, saveCalls := 0, result := none }

/-- cacheEntry (internal/pokecache/pokecache.go): a cached blob and the
instant it was created. -/
structure CacheEntry where
  val : List Nat
  createdAt : Int
deriving BEq, Repr, DecidableEq

/-- Cache (internal/pokecache/pokecache.go): the map under the mutex. The
mutex discipline is reflected in each operation being a single atomic
function on this state. -/
structure Cache where
  cache : List (String × CacheEntry)
deriving BEq, Repr, DecidableEq

/-- Cache.Add: store or overwrite the blob under the key, timestamped now. -/
def Cache.Add (c : Cache) (key : String) (val : List Nat) (now : Int) : Cache :=
  { cache := assocInsert c.cache key { val := val, createdAt := now } }

/-- Cache.Get: a bare map read, returning the stored blob and the presence
flag; a miss returns the zero value (the empty blob) and false. It takes
no clock and performs no age check and no write. -/
def Cache.Get (c : Cache) (key : String) : List Nat × Bool :=
  match assocFind c.cache key with
  | some entry => (entry.val, true)
  | none => ([], false)

/-- Cache.reap: delete every entry created strictly before now minus the
interval, keeping all others untouched. -/
def Cache.reap (c : Cache) (interval now : Int) : Cache :=
  { cache := c.cache.filter (fun kv => !(kv.2.createdAt < now - interval)) }

/-! Helper lemmas shared by the claim proofs. -/

theorem ne_append_tmp (s : String) : s ≠ s ++ ".tmp" := by
  intro h
  have hlen := congrArg String.length h
  rw [String.length_append] at hlen
  have h4 : (".tmp" : String).length = 4 := rfl
  rw [h4] at hlen
  omega

theorem savePokedexData_cfg_eq (env : SaveEnv) (cfg : Config) (fs : FileSys) :
    (savePokedexData env cfg fs).cfg = cfg := by
  unfold savePokedexData
  rcases env with ⟨h, le, la, n, w, fw, r⟩
  cases le <;> cases la <;> cases w <;> cases r <;> cases fw <;> simp

theorem savePokedexData_lock_released (env : SaveEnv) (cfg : Config)
    (fs : FileSys) : (savePokedexData env cfg fs).lockHeldOnReturn = false := by
  unfold savePokedexData
  rcases env with ⟨h, le, la, n, w, fw, r⟩
  cases le <;> cases la <;> cases w <;> cases r <;> cases fw <;> simp

theorem autoSaveIfEnabled_cfg_eq (env : SaveEnv) (cfg : Config) (fs : FileSys) :
    (autoSaveIfEnabled env cfg fs).cfg = cfg := by
  unfold autoSaveIfEnabled
  by_cases h : cfg.autoSaveEnabled <;> simp [h, savePokedexData_cfg_eq]

theorem autoSaveIfEnabled_saveCalls (env : SaveEnv) (cfg : Config)
    (fs : FileSys) : (autoSaveIfEnabled env cfg fs).saveCalls =
      if cfg.autoSaveEnabled then 1 else 0 := by
  unfold autoSaveIfEnabled
  by_cases h : cfg.autoSaveEnabled <;> simp [h]

/-! Concrete sample values used by the witness theorems. -/

def pokedexA : Pokedex := [("pikachu", Json.num 25), ("mr-mime", Json.str "psychic")]

def cfgA : Config :=
  { nextLocationURL := some "https://n", prevLocationURL := some "https://p",
    pokedex := pokedexA, autoSaveEnabled := true, autoSaveInterval := 3,
    changesSinceSync := 1, recentLocations := [("kanto", "https://k")],
    mapViewedThisSession := true, debugMode := false }

def fsEmpty : FileSys := fun _ => none

/-- A save environment where every effect succeeds. -/
def envOk : SaveEnv :=
  { homeDir := some "/home/u", lockErr := false, lockAcquired := true,
    now := 42, writeOk := true, failedWriteTmp := none, renameOk := true }

/-- A save environment where the exclusive lock times out. -/
def envLockBusy : SaveEnv :=
  { homeDir := some "/home/u", lockErr := false, lockAcquired := false,
    now := 42, writeOk := true, failedWriteTmp := none, renameOk := true }

/-- A load environment where every effect succeeds. -/
def lenvOk : LoadEnv :=
  { homeDir := some "/home/u", lockErr := false, lockAcquired := true,
    readOk := true }

/-! Claim theorems. -/

/-- Claim C3: savePokedexData locks the sidecar path obtained by suffixing
".lock" to the save path, with the fixed five second timeout polled every
hundred milliseconds; when the lock acquisition times out it returns the
lock-timeout error with the in-memory config and the filesystem untouched;
the lock is not held on any return path; and the config is returned
unmodified on every path. -/
theorem save_lock_error_handling (env : SaveEnv) (cfg : Config) (fs : FileSys) :
    getLockFilePath (getSaveFilePath env.homeDir) =
      getSaveFilePath env.homeDir ++ ".lock" ∧
    lockTimeout = 5000 ∧ lockRetryInterval = 100 ∧
    (savePokedexData env cfg fs).cfg = cfg ∧
    (savePokedexData env cfg fs).lockHeldOnReturn = false ∧
    (env.lockErr = false → env.lockAcquired = false →
      (savePokedexData env cfg fs).result = some SaveError.lockTimeout ∧
      (savePokedexData env cfg fs).fs = fs) := by
  refine ⟨rfl, rfl, rfl, savePokedexData_cfg_eq env cfg fs,
    savePokedexData_lock_released env cfg fs, ?_⟩
  intro hle hla
  unfold savePokedexData
  simp [hle, hla]

/-- Witness for C3 at a concrete config and a lock-timeout environment. -/
theorem save_lock_error_handling_witness :
    (savePokedexData envLockBusy cfgA fsEmpty).cfg = cfgA ∧
    (savePokedexData envLockBusy cfgA fsEmpty).lockHeldOnReturn = false ∧
    (savePokedexData envLockBusy cfgA fsEmpty).result = some SaveError.lockTimeout ∧
    (savePokedexData envLockBusy cfgA fsEmpty).fs = fsEmpty := by
  have h := save_lock_error_handling envLockBusy cfgA fsEmpty
  exact ⟨h.2.2.2.1, h.2.2.2.2.1, (h.2.2.2.2.2 rfl rfl).1, (h.2.2.2.2.2 rfl rfl).2⟩

/-- Claim C4: when the save file does not exist, loadPokedexData returns
success and leaves the config, in particular the in-memory collection,
exactly as it was. -/
theorem load_missing_file_first_run (env : LoadEnv) (cfg : Config)
    (fs : FileSys) (habs : fs (getSaveFilePath env.homeDir) = none) :
    (loadPokedexData env cfg fs).result = none ∧
    (loadPokedexData env cfg fs).cfg = cfg := by
  unfold loadPokedexData
  simp [habs]

/-- Witness for C4 on the empty filesystem. -/
theorem load_missing_file_first_run_witness :
    fsEmpty (getSaveFilePath lenvOk.homeDir) = none ∧
    (loadPokedexData lenvOk cfgA fsEmpty).result = none ∧
    (loadPokedexData lenvOk cfgA fsEmpty).cfg = cfgA := by
  have h := load_missing_file_first_run lenvOk cfgA fsEmpty rfl
  exact ⟨rfl, h.1, h.2⟩

theorem load_success_helper (env : LoadEnv) (cfg : Config)
    (fs : FileSys) (content : Json) (d : SaveData)
    (hfile : fs (getSaveFilePath env.homeDir) = some content)
    (hle : env.lockErr = false) (hla : env.lockAcquired = true)
    (hread : env.readOk = true)
    (hdec : jsonUnmarshalSaveData content = some d) :
    (loadPokedexData env cfg fs).result = none ∧
    (loadPokedexData env cfg fs).cfg =
      { cfg with pokedex := d.pokedex, nextLocationURL := none,
                 prevLocationURL := none, mapViewedThisSession := false } := by
  unfold loadPokedexData
  simp [hfile, hle, hla, hread, hdec]

/-- Claim C10: a successful loadPokedexData replaces the collection
wholesale with the decoded mapping, never merging with the previous
in-memory entries, and always clears the two pagination cursors and the
map-viewed flag, whatever their previous values and whatever the file
holds; every other config field is preserved. -/
theorem load_success_postcondition (env : LoadEnv) (cfg : Config)
    (fs : FileSys) (content : Json) (d : SaveData)
    (hfile : fs (getSaveFilePath env.homeDir) = some content)
    (hle : env.lockErr = false) (hla : env.lockAcquired = true)
    (hread : env.readOk = true)
    (hdec : jsonUnmarshalSaveData content = some d) :
    (loadPokedexData env cfg fs).result = none ∧
    (loadPokedexData env cfg fs).cfg =
      { cfg with pokedex := d.pokedex, nextLocationURL := none,
                 prevLocationURL := none, mapViewedThisSession := false } :=
  load_success_helper env cfg fs content d hfile hle hla hread hdec

/-- Witness for C10: loading a concrete document over a dirty config. -/
theorem load_success_postcondition_witness :
    (fsWrite fsEmpty (getSaveFilePath lenvOk.homeDir)
        (jsonMarshalSaveData { pokedex := [("eevee", Json.num 133)], lastSaved := 9 }))
        (getSaveFilePath lenvOk.homeDir)
      = some (jsonMarshalSaveData { pokedex := [("eevee", Json.num 133)], lastSaved := 9 }) ∧
    jsonUnmarshalSaveData
        (jsonMarshalSaveData { pokedex := [("eevee", Json.num 133)], lastSaved := 9 })
      = some { pokedex := [("eevee", Json.num 133)], lastSaved := 9 } ∧
    (loadPokedexData lenvOk cfgA
        (fsWrite fsEmpty (getSaveFilePath lenvOk.homeDir)
          (jsonMarshalSaveData { pokedex := [("eevee", Json.num 133)], lastSaved := 9 }))).cfg =
      { cfgA with pokedex := [("eevee", Json.num 133)], nextLocationURL := none,
                  prevLocationURL := none, mapViewedThisSession := false } := by
  have h := load_success_postcondition lenvOk cfgA
    (fsWrite fsEmpty (getSaveFilePath lenvOk.homeDir)
      (jsonMarshalSaveData { pokedex := [("eevee", Json.num 133)], lastSaved := 9 }))
    (jsonMarshalSaveData { pokedex := [("eevee", Json.num 133)], lastSaved := 9 })
    { pokedex := [("eevee", Json.num 133)], lastSaved := 9 }
    (by simp [fsWrite]) rfl rfl rfl rfl
  exact ⟨by simp [fsWrite], rfl, h.2⟩

/-- Claim C8: Cache.Get returns the stored blob with the presence flag; an
absent key yields found equal to false; a present entry is served with its
stored value whatever its age, in particular an entry whose age already
exceeds the ttl is still a hit, since Get consults no clock at all. -/
theorem cache_get_semantics (c : Cache) (key : String) :
    (∀ e, assocFind c.cache key = some e → c.Get key = (e.val, true)) ∧
    (assocFind c.cache key = none → c.Get key = ([], false)) ∧
    (∀ e ttl now, assocFind c.cache key = some e →
      e.createdAt < now - ttl → c.Get key = (e.val, true)) := by
  refine ⟨?_, ?_, ?_⟩
  · intro e he
    unfold Cache.Get
    rw [he]
  · intro he
    unfold Cache.Get
    rw [he]
  · intro e ttl now he _
    unfold Cache.Get
    rw [he]

/-- Witness for C8: a stale entry is still a hit while a missing key is a
miss. -/
theorem cache_get_semantics_witness :
    (Cache.mk [("url1", { val := [7, 7], createdAt := 0 })]).Get "url1"
      = ([7, 7], true) ∧
    ((0 : Int) < 1000 - 10) ∧
    (Cache.mk [("url1", { val := [7, 7], createdAt := 0 })]).Get "url2"
      = ([], false) := by
  have h := cache_get_semantics (Cache.mk [("url1", { val := [7, 7], createdAt := 0 })]) "url1"
  have h2 := cache_get_semantics (Cache.mk [("url1", { val := [7, 7], createdAt := 0 })]) "url2"
  exact ⟨h.2.2 { val := [7, 7], createdAt := 0 } 10 1000 rfl (by decide),
    by decide, h2.2.1 rfl⟩

theorem assocFind_eq_none {β : Type} (l : List (String × β)) (k : String)
    (h : ∀ p ∈ l, p.1 ≠ k) : assocFind l k = none := by
  induction l with
  | nil => rfl
  | cons kv rest ih =>
    unfold assocFind
    rw [if_neg (h kv (List.mem_cons_self _ _))]
    exact ih (fun p hp => h p (List.mem_cons_of_mem _ hp))

theorem assocFind_cons {β : Type} (k1 : String) (v1 : β)
    (rest : List (String × β)) (k : String) :
    assocFind ((k1, v1) :: rest) k =
      if k1 = k then some v1 else assocFind rest k := rfl

theorem assocFind_filter {β : Type} (q : β → Bool) (l : List (String × β))
    (k : String) (hnd : (l.map Prod.fst).Nodup) :
    assocFind (l.filter (fun kv => q kv.2)) k =
      match assocFind l k with
      | some e => if q e then some e else none
      | none => none := by
  induction l with
  | nil => rfl
  | cons kv rest ih =>
    obtain ⟨k1, v1⟩ := kv
    rw [List.map_cons, List.nodup_cons] at hnd
    obtain ⟨hk, hrest⟩ := hnd
    by_cases hkey : k1 = k
    · subst hkey
      by_cases hq : q v1
      · simp [List.filter_cons, assocFind_cons, hq]
      · have habs : ∀ p ∈ rest.filter (fun kv => q kv.2), p.1 ≠ k1 := by
          intro p hp hcontra
          have hmem : p.1 ∈ rest.map Prod.fst :=
            List.mem_map_of_mem Prod.fst (List.mem_of_mem_filter hp)
          rw [hcontra] at hmem
          exact hk hmem
        simp [List.filter_cons, assocFind_cons, hq,
          assocFind_eq_none _ _ habs]
    · by_cases hq : q v1 <;>
        simp [List.filter_cons, assocFind_cons, hq, hkey, ih hrest]

theorem mem_keys_assocInsert {β : Type} (l : List (String × β)) (k : String)
    (v : β) (a : String) (h : a ∈ (assocInsert l k v).map Prod.fst) :
    a ∈ l.map Prod.fst ∨ a = k := by
  induction l with
  | nil =>
    rw [show assocInsert ([] : List (String × β)) k v = [(k, v)] from rfl] at h
    simp at h
    exact Or.inr h
  | cons kv rest ih =>
    obtain ⟨k1, v1⟩ := kv
    rw [show assocInsert ((k1, v1) :: rest) k v =
      if k1 = k then (k, v) :: rest else (k1, v1) :: assocInsert rest k v
      from rfl] at h
    by_cases hkey : k1 = k
    · rw [if_pos hkey, List.map_cons] at h
      rcases List.mem_cons.mp h with h | h
      · exact Or.inr h
      · exact Or.inl (by rw [List.map_cons]; exact List.mem_cons_of_mem _ h)
    · rw [if_neg hkey, List.map_cons] at h
      rcases List.mem_cons.mp h with h | h
      · refine Or.inl ?_
        rw [List.map_cons, h]
        exact List.mem_cons_self _ _
      · rcases ih h with h2 | h2
        · exact Or.inl (by rw [List.map_cons]; exact List.mem_cons_of_mem _ h2)
        · exact Or.inr h2

theorem nodup_keys_assocInsert {β : Type} (l : List (String × β)) (k : String)
    (v : β) (hnd : (l.map Prod.fst).Nodup) :
    ((assocInsert l k v).map Prod.fst).Nodup := by
  induction l with
  | nil => simp [assocInsert]
  | cons kv rest ih =>
    rw [List.map_cons, List.nodup_cons] at hnd
    obtain ⟨hk, hrest⟩ := hnd
    unfold assocInsert
    by_cases hkey : kv.1 = k
    · rw [if_pos hkey]
      rw [List.map_cons, List.nodup_cons]
      exact ⟨hkey ▸ hk, hrest⟩
    · rw [if_neg hkey]
      rw [List.map_cons, List.nodup_cons]
      refine ⟨?_, ih hrest⟩
      intro hcontra
      rcases mem_keys_assocInsert rest k v kv.1 hcontra with h | h
      · exact hk h
      · exact hkey h

theorem assocFind_assocInsert_self {β : Type} (l : List (String × β))
    (k : String) (v : β) : assocFind (assocInsert l k v) k = some v := by
  induction l with
  | nil => simp [assocInsert, assocFind]
  | cons kv rest ih =>
    unfold assocInsert
    by_cases hkey : kv.1 = k
    · rw [if_pos hkey]
      simp [assocFind]
    · rw [if_neg hkey]
      unfold assocFind
      rw [if_neg hkey]
      exact ih

theorem reap_lookup (c : Cache) (interval now : Int) (k : String)
    (hnd : (c.cache.map Prod.fst).Nodup) :
    assocFind (c.reap interval now).cache k =
      match assocFind c.cache k with
      | some e => if e.createdAt < now - interval then none else some e
      | none => none := by
  unfold Cache.reap
  rw [assocFind_filter (fun e => !(decide (e.createdAt < now - interval)))
      c.cache k hnd]
  cases assocFind c.cache k with
  | none => rfl
  | some e =>
    by_cases hlt : e.createdAt < now - interval <;> simp [hlt]

theorem reap_absent_of_stale (c : Cache) (interval now : Int) (k : String)
    (hnd : (c.cache.map Prod.fst).Nodup) (e : CacheEntry)
    (he : assocFind c.cache k = some e)
    (hold : e.createdAt + interval < now) :
    (c.reap interval now).Get k = ([], false) := by
  unfold Cache.Get
  rw [reap_lookup c interval now k hnd, he]
  have hlt : e.createdAt < now - interval := by omega
  simp [hlt]

/-- Claim C9: a sweep deletes exactly the entries whose creation instant is
strictly older than now minus the interval and leaves every other entry,
value and timestamp included, unchanged; hence a key added at some instant
and never re-added is absent after a sweep running more than the interval
later. -/
theorem reap_sweep_exactness (c : Cache) (interval now : Int) (k : String)
    (hnd : (c.cache.map Prod.fst).Nodup) :
    (assocFind (c.reap interval now).cache k =
      match assocFind c.cache k with
      | some e => if e.createdAt < now - interval then none else some e
      | none => none) ∧
    (∀ e, assocFind c.cache k = some e → e.createdAt + interval < now →
      (c.reap interval now).Get k = ([], false)) ∧
    (∀ val t, t + interval < now →
      ((c.Add k val t).reap interval now).Get k = ([], false)) := by
  refine ⟨reap_lookup c interval now k hnd, ?_, ?_⟩
  · intro e he hold
    exact reap_absent_of_stale c interval now k hnd e he hold
  · intro val t ht
    refine reap_absent_of_stale (c.Add k val t) interval now k ?_
      { val := val, createdAt := t } ?_ ht
    · exact nodup_keys_assocInsert c.cache k _ hnd
    · exact assocFind_assocInsert_self c.cache k _

/-- Witness for C9: a two-entry cache keeps the fresh entry and drops the
stale one; a key inserted longer than the interval before the sweep is
gone. -/
theorem reap_sweep_exactness_witness :
    (((Cache.mk [("a", { val := [1], createdAt := 0 }),
                 ("b", { val := [2], createdAt := 90 })]).cache.map
        Prod.fst).Nodup) ∧
    assocFind ((Cache.mk [("a", { val := [1], createdAt := 0 }),
                 ("b", { val := [2], createdAt := 90 })]).reap 10 100).cache "a"
      = none ∧
    assocFind ((Cache.mk [("a", { val := [1], createdAt := 0 }),
                 ("b", { val := [2], createdAt := 90 })]).reap 10 100).cache "b"
      = some { val := [2], createdAt := 90 } ∧
    (((Cache.mk [("a", { val := [1], createdAt := 0 }),
                 ("b", { val := [2], createdAt := 90 })]).Add "c" [3] 0).reap
        10 100).Get "c" = ([], false) := by
  have hnd : (((Cache.mk [("a", { val := [1], createdAt := 0 }),
      ("b", { val := [2], createdAt := 90 })]).cache.map Prod.fst).Nodup) := by
    simp
  have ha := reap_sweep_exactness (Cache.mk [("a", { val := [1], createdAt := 0 }),
    ("b", { val := [2], createdAt := 90 })]) 10 100 "a" hnd
  have hb := reap_sweep_exactness (Cache.mk [("a", { val := [1], createdAt := 0 }),
    ("b", { val := [2], createdAt := 90 })]) 10 100 "b" hnd
  have hc := reap_sweep_exactness (Cache.mk [("a", { val := [1], createdAt := 0 }),
    ("b", { val := [2], createdAt := 90 })]) 10 100 "c" hnd
  refine ⟨hnd, ?_, ?_, hc.2.2 [3] 0 (by decide)⟩
  · rw [ha.1]
    decide
  · rw [hb.1]
    decide

theorem unmarshal_marshal (d : SaveData) :
    jsonUnmarshalSaveData (jsonMarshalSaveData d) = some d := rfl

/-- Claim C2: with the lock held, savePokedexData writes the serialized
document to the temporary file at the save path suffixed ".tmp", then does
one atomic rename over the save path; after every effectful step the save
path holds either the previous complete document or the new complete
document; on success the save path holds the new document; if the rename
fails the temporary file is removed and the error is surfaced. -/
theorem save_atomic_write_rename (env : SaveEnv) (cfg : Config) (fs : FileSys)
    (hle : env.lockErr = false) (hla : env.lockAcquired = true) :
    (env.writeOk = true →
      (savePokedexData env cfg fs).fsTrace.head? =
        some (fsWrite fs (getSaveFilePath env.homeDir ++ ".tmp")
          (jsonMarshalSaveData { pokedex := cfg.pokedex, lastSaved := env.now }))) ∧
    (∀ fs' ∈ (savePokedexData env cfg fs).fsTrace,
      fs' (getSaveFilePath env.homeDir) = fs (getSaveFilePath env.homeDir) ∨
      fs' (getSaveFilePath env.homeDir) =
        some (jsonMarshalSaveData { pokedex := cfg.pokedex, lastSaved := env.now })) ∧
    ((savePokedexData env cfg fs).fs (getSaveFilePath env.homeDir) =
        fs (getSaveFilePath env.homeDir) ∨
      (savePokedexData env cfg fs).fs (getSaveFilePath env.homeDir) =
        some (jsonMarshalSaveData { pokedex := cfg.pokedex, lastSaved := env.now })) ∧
    (env.writeOk = true → env.renameOk = true →
      (savePokedexData env cfg fs).fs (getSaveFilePath env.homeDir) =
        some (jsonMarshalSaveData { pokedex := cfg.pokedex, lastSaved := env.now }) ∧
      (savePokedexData env cfg fs).result = none) ∧
    (env.writeOk = true → env.renameOk = false →
      (savePokedexData env cfg fs).fs (getSaveFilePath env.homeDir ++ ".tmp") = none ∧
      (savePokedexData env cfg fs).result = some SaveError.renameFailed) := by
  have hne : getSaveFilePath env.homeDir ≠ getSaveFilePath env.homeDir ++ ".tmp" :=
    ne_append_tmp _
  rcases env with ⟨home, le, la, n, w, fw, r⟩
  simp only at hle hla
  subst hle hla
  cases w <;> cases r <;> cases fw <;>
    simp_all [savePokedexData, fsWrite, fsRename, fsRemove]

/-- Witness for C2: a fully successful save installs the new document at
the save path, and a save whose rename fails removes the temporary file
and surfaces the rename error. -/
theorem save_atomic_write_rename_witness :
    ((savePokedexData envOk cfgA fsEmpty).fs (getSaveFilePath envOk.homeDir) =
      some (jsonMarshalSaveData { pokedex := cfgA.pokedex, lastSaved := envOk.now }) ∧
     (savePokedexData envOk cfgA fsEmpty).result = none) ∧
    ((savePokedexData { envOk with renameOk := false } cfgA fsEmpty).fs
        (getSaveFilePath envOk.homeDir ++ ".tmp") = none ∧
     (savePokedexData { envOk with renameOk := false } cfgA fsEmpty).result =
        some SaveError.renameFailed) := by
  have h1 := save_atomic_write_rename envOk cfgA fsEmpty rfl rfl
  have h2 := save_atomic_write_rename { envOk with renameOk := false } cfgA
    fsEmpty rfl rfl
  exact ⟨h1.2.2.2.1 rfl rfl, h2.2.2.2.2 rfl rfl⟩

/-- Claim C1: a completed save followed by a load in the same process
round-trips: the load succeeds and the in-memory collection it installs is
exactly the collection that was saved, and the on-disk document is the
marshalled form of that collection with the save timestamp. -/
theorem save_load_roundtrip (senv : SaveEnv) (lenv : LoadEnv)
    (cfg cfg2 : Config) (fs : FileSys)
    (h1 : senv.lockErr = false) (h2 : senv.lockAcquired = true)
    (h3 : senv.writeOk = true) (h4 : senv.renameOk = true)
    (h5 : lenv.homeDir = senv.homeDir)
    (h6 : lenv.lockErr = false) (h7 : lenv.lockAcquired = true)
    (h8 : lenv.readOk = true) :
    (savePokedexData senv cfg fs).result = none ∧
    (savePokedexData senv cfg fs).fs (getSaveFilePath senv.homeDir) =
      some (jsonMarshalSaveData { pokedex := cfg.pokedex, lastSaved := senv.now }) ∧
    (loadPokedexData lenv cfg2 (savePokedexData senv cfg fs).fs).result = none ∧
    (loadPokedexData lenv cfg2 (savePokedexData senv cfg fs).fs).cfg.pokedex =
      cfg.pokedex := by
  have hres : (savePokedexData senv cfg fs).result = none := by
    unfold savePokedexData
    simp [h1, h2, h3, h4]
  have hfile : (savePokedexData senv cfg fs).fs (getSaveFilePath senv.homeDir) =
      some (jsonMarshalSaveData { pokedex := cfg.pokedex, lastSaved := senv.now }) := by
    unfold savePokedexData
    simp [h1, h2, h3, h4, fsRename, fsWrite]
  have hload := load_success_helper lenv cfg2 (savePokedexData senv cfg fs).fs
    (jsonMarshalSaveData { pokedex := cfg.pokedex, lastSaved := senv.now })
    { pokedex := cfg.pokedex, lastSaved := senv.now }
    (by rw [h5]; exact hfile) h6 h7 h8 (unmarshal_marshal _)
  exact ⟨hres, hfile, hload.1, by rw [hload.2]⟩

/-- Witness for C1 on a concrete collection and an empty filesystem. -/
theorem save_load_roundtrip_witness :
    (savePokedexData envOk cfgA fsEmpty).result = none ∧
    (savePokedexData envOk cfgA fsEmpty).fs (getSaveFilePath envOk.homeDir) =
      some (jsonMarshalSaveData { pokedex := cfgA.pokedex, lastSaved := envOk.now }) ∧
    (loadPokedexData lenvOk cfgA (savePokedexData envOk cfgA fsEmpty).fs).result = none ∧
    (loadPokedexData lenvOk cfgA (savePokedexData envOk cfgA fsEmpty).fs).cfg.pokedex =
      pokedexA :=
  save_load_roundtrip envOk lenvOk cfgA cfgA fsEmpty rfl rfl rfl rfl rfl rfl rfl rfl

/-! Further sample values for the auto-save policy claims. -/

/-- Auto-save disabled, interval three, two changes already accumulated. -/
def cfgDisabled2of3 : Config :=
  { cfgA with autoSaveEnabled := false, autoSaveInterval := 3,
              changesSinceSync := 2 }

/-- Auto-save disabled, interval one, no changes accumulated. -/
def cfgDisabled0of1 : Config :=
  { cfgA with autoSaveEnabled := false, autoSaveInterval := 1,
              changesSinceSync := 0 }

/-- Auto-save enabled, interval one, no changes accumulated. -/
def cfgEnabled0of1 : Config :=
  { cfgA with autoSaveEnabled := true, autoSaveInterval := 1,
              changesSinceSync := 0 }

/-- A save environment where the rename step fails. -/
def envRenameFail : SaveEnv := { envOk with renameOk := false }

/-- Claim C5: with auto-save enabled and the counter strictly below the
interval beforehand, one mutation through UpdatePokedexAndSave increments
the counter and, exactly when the incremented counter reaches the
configured interval, resets it to zero and invokes savePokedexData once
(after the counter update, outside the config lock); otherwise no save is
invoked. With interval three this makes every third mutation trigger
exactly one save and the fourth begin a new cycle. -/
theorem autosave_threshold_policy (env : SaveEnv) (cfg : Config) (fs : FileSys)
    (hen : cfg.autoSaveEnabled = true)
    (hle : cfg.changesSinceSync + 1 ≤ cfg.autoSaveInterval) :
    ((UpdatePokedexAndSave env cfg fs).saveCalls =
      if cfg.changesSinceSync + 1 = cfg.autoSaveInterval then 1 else 0) ∧
    ((UpdatePokedexAndSave env cfg fs).cfg.changesSinceSync =
      if cfg.changesSinceSync + 1 = cfg.autoSaveInterval then 0
      else cfg.changesSinceSync + 1) ∧
    ((UpdatePokedexAndSave env cfg fs).saveCalls = 1 ↔
      cfg.changesSinceSync + 1 = cfg.autoSaveInterval) := by
  by_cases heq : cfg.changesSinceSync + 1 = cfg.autoSaveInterval
  · have hge : cfg.changesSinceSync + 1 ≥ cfg.autoSaveInterval := by omega
    simp [UpdatePokedexAndSave, hge, heq, autoSaveIfEnabled_cfg_eq,
      autoSaveIfEnabled_saveCalls, hen]
  · have hlt : ¬(cfg.changesSinceSync + 1 ≥ cfg.autoSaveInterval) := by omega
    simp [UpdatePokedexAndSave, hlt, heq]

/-- Witness for C5: the third of three mutations at interval three fires
exactly one save and resets the counter. -/
theorem autosave_threshold_policy_witness :
    ({ cfgA with changesSinceSync := 2 } : Config).autoSaveEnabled = true ∧
    ({ cfgA with changesSinceSync := 2 } : Config).changesSinceSync + 1 ≤
      ({ cfgA with changesSinceSync := 2 } : Config).autoSaveInterval ∧
    (UpdatePokedexAndSave envOk { cfgA with changesSinceSync := 2 } fsEmpty).saveCalls = 1 ∧
    (UpdatePokedexAndSave envOk { cfgA with changesSinceSync := 2 } fsEmpty).cfg.changesSinceSync = 0 := by
  have h := autosave_threshold_policy envOk { cfgA with changesSinceSync := 2 }
    fsEmpty rfl (by decide)
  refine ⟨rfl, by decide, ?_, ?_⟩
  · rw [h.1]
    decide
  · rw [h.2.1]
    decide

/-- Counterexample to C6 as stated: with auto-save disabled, interval
three and two accumulated changes, the next mutation resets the counter to
zero while disabled (so it never exceeds the threshold), and after
re-enabling auto-save the very next mutation does not trigger a save. -/
theorem autosave_disabled_claim_cex :
    (UpdatePokedexAndSave envOk cfgDisabled2of3 fsEmpty).cfg.changesSinceSync = 0 ∧
    (UpdatePokedexAndSave envOk cfgDisabled2of3 fsEmpty).saveCalls = 0 ∧
    (UpdatePokedexAndSave envOk
      { (UpdatePokedexAndSave envOk cfgDisabled2of3 fsEmpty).cfg with
          autoSaveEnabled := true }
      (UpdatePokedexAndSave envOk cfgDisabled2of3 fsEmpty).fs).saveCalls = 0 := by
  refine ⟨?_, ?_, ?_⟩ <;> decide

theorem UpdatePokedexAndSave_cfg (env : SaveEnv) (cfg : Config)
    (fs : FileSys) :
    (UpdatePokedexAndSave env cfg fs).cfg =
      { cfg with changesSinceSync :=
          if cfg.changesSinceSync + 1 ≥ cfg.autoSaveInterval then 0
          else cfg.changesSinceSync + 1 } := by
  by_cases hge : cfg.changesSinceSync + 1 ≥ cfg.autoSaveInterval
  · simp [UpdatePokedexAndSave, hge, autoSaveIfEnabled_cfg_eq]
  · simp [UpdatePokedexAndSave, hge]

/-- Claim C6 as amended: with auto-save disabled, UpdatePokedexAndSave
still increments the counter and never calls savePokedexData, but the
threshold logic still runs: on reaching the interval the counter is reset
to zero with the save skipped, so the counter never exceeds the interval.
Re-enabling auto-save preserves the counter (commandAutoSave only flips
the flag), and the mutation after re-enabling triggers an immediate save
exactly when the preserved counter incremented once reaches the interval,
not unconditionally. -/
theorem autosave_disabled_skips_save (env : SaveEnv) (cfg : Config)
    (fs : FileSys) (hdis : cfg.autoSaveEnabled = false) :
    (UpdatePokedexAndSave env cfg fs).saveCalls = 0 ∧
    (UpdatePokedexAndSave env cfg fs).result = none ∧
    (UpdatePokedexAndSave env cfg fs).fs = fs ∧
    ((UpdatePokedexAndSave env cfg fs).cfg.changesSinceSync =
      if cfg.changesSinceSync + 1 ≥ cfg.autoSaveInterval then 0
      else cfg.changesSinceSync + 1) ∧
    (∀ env2 fs2,
      (UpdatePokedexAndSave env2
        { (UpdatePokedexAndSave env cfg fs).cfg with autoSaveEnabled := true }
        fs2).saveCalls = 1 ↔
      (UpdatePokedexAndSave env cfg fs).cfg.changesSinceSync + 1 ≥
        cfg.autoSaveInterval) := by
  refine ⟨?_, ?_, ?_, ?_, ?_⟩
  · by_cases hge : cfg.changesSinceSync + 1 ≥ cfg.autoSaveInterval
    · simp [UpdatePokedexAndSave, autoSaveIfEnabled, hge, hdis]
    · simp [UpdatePokedexAndSave, hge]
  · by_cases hge : cfg.changesSinceSync + 1 ≥ cfg.autoSaveInterval
    · simp [UpdatePokedexAndSave, autoSaveIfEnabled, hge, hdis]
    · simp [UpdatePokedexAndSave, hge]
  · by_cases hge : cfg.changesSinceSync + 1 ≥ cfg.autoSaveInterval
    · simp [UpdatePokedexAndSave, autoSaveIfEnabled, hge, hdis]
    · simp [UpdatePokedexAndSave, hge]
  · by_cases hge : cfg.changesSinceSync + 1 ≥ cfg.autoSaveInterval
    · simp [UpdatePokedexAndSave, autoSaveIfEnabled, hge, hdis]
    · simp [UpdatePokedexAndSave, hge]
  · intro env2 fs2
    rw [UpdatePokedexAndSave_cfg]
    by_cases hge2 : (if cfg.changesSinceSync + 1 ≥ cfg.autoSaveInterval then 0
        else cfg.changesSinceSync + 1) + 1 ≥ cfg.autoSaveInterval
    · simp [UpdatePokedexAndSave, hge2, autoSaveIfEnabled_saveCalls]
    · simp [UpdatePokedexAndSave, hge2]

/-- Witness for C6 as amended: at the disabled config two short of an
interval of three the counter resets with no save and the re-enabled next
mutation does not save; at the disabled config one change in, the counter
is preserved at two, and once re-enabled the very next mutation saves. -/
theorem autosave_disabled_skips_save_witness :
    cfgDisabled2of3.autoSaveEnabled = false ∧
    (UpdatePokedexAndSave envOk cfgDisabled2of3 fsEmpty).saveCalls = 0 ∧
    (UpdatePokedexAndSave envOk cfgDisabled2of3 fsEmpty).result = none ∧
    (UpdatePokedexAndSave envOk cfgDisabled2of3 fsEmpty).cfg.changesSinceSync = 0 ∧
    ¬((UpdatePokedexAndSave envOk
        { (UpdatePokedexAndSave envOk cfgDisabled2of3 fsEmpty).cfg with
            autoSaveEnabled := true } fsEmpty).saveCalls = 1) ∧
    (UpdatePokedexAndSave envOk
        { (UpdatePokedexAndSave envOk
            { cfgDisabled2of3 with changesSinceSync := 1 } fsEmpty).cfg with
            autoSaveEnabled := true } fsEmpty).saveCalls = 1 := by
  have h := autosave_disabled_skips_save envOk cfgDisabled2of3 fsEmpty rfl
  have h1 := autosave_disabled_skips_save envOk
    { cfgDisabled2of3 with changesSinceSync := 1 } fsEmpty rfl
  refine ⟨rfl, h.1, h.2.1, ?_, ?_, ?_⟩
  · rw [h.2.2.2.1]
    decide
  · intro hc
    have hr := (h.2.2.2.2 envOk fsEmpty).mp hc
    revert hr
    decide
  · exact (h1.2.2.2.2 envOk fsEmpty).mpr (by decide)

/-- Counterexample to C7 as stated: the counter is reset to zero without
any flush when auto-save is disabled at interval one, and it is also reset
to zero when the flush runs but fails on the rename step. -/
theorem sync_counter_claim_cex :
    ((UpdatePokedexAndSave envOk cfgDisabled0of1 fsEmpty).cfg.changesSinceSync = 0 ∧
     (UpdatePokedexAndSave envOk cfgDisabled0of1 fsEmpty).saveCalls = 0) ∧
    ((UpdatePokedexAndSave envRenameFail cfgEnabled0of1 fsEmpty).cfg.changesSinceSync = 0 ∧
     (UpdatePokedexAndSave envRenameFail cfgEnabled0of1 fsEmpty).result =
       some SaveError.renameFailed) := by
  refine ⟨⟨?_, ?_⟩, ?_, ?_⟩ <;> decide

/-- Claim C7 as amended: in UpdatePokedexAndSave the counter is reset to
zero exactly when the incremented counter reaches the interval, before the
flush is attempted, and thus also when the flush is skipped because
auto-save is disabled or when the flush fails; in the commandRelease
auto-save block the reset happens when the threshold is reached and the
flush attempt returns no error, including the disabled skip, but not when
the flush fails. -/
theorem sync_counter_reset_policy (env : SaveEnv) (cfg : Config)
    (fs : FileSys) (hpos : 0 ≤ cfg.changesSinceSync) :
    ((UpdatePokedexAndSave env cfg fs).cfg.changesSinceSync =
      if cfg.changesSinceSync + 1 ≥ cfg.autoSaveInterval then 0
      else cfg.changesSinceSync + 1) ∧
    ((UpdatePokedexAndSave env cfg fs).cfg.changesSinceSync = 0 ↔
      cfg.changesSinceSync + 1 ≥ cfg.autoSaveInterval) ∧
    (cfg.changesSinceSync + 1 ≥ cfg.autoSaveInterval →
      cfg.autoSaveEnabled = false →
      (commandReleaseAutoSaveBlock env cfg fs).cfg.changesSinceSync = 0 ∧
      (commandReleaseAutoSaveBlock env cfg fs).saveCalls = 0) ∧
    (∀ e, cfg.changesSinceSync + 1 ≥ cfg.autoSaveInterval →
      cfg.autoSaveEnabled = true →
      (savePokedexData env { cfg with changesSinceSync := cfg.changesSinceSync + 1 } fs).result = some e →
      (commandReleaseAutoSaveBlock env cfg fs).cfg.changesSinceSync =
        cfg.changesSinceSync + 1 ∧
      (commandReleaseAutoSaveBlock env cfg fs).result = some e) := by
  refine ⟨?_, ?_, ?_, ?_⟩
  · by_cases hge : cfg.changesSinceSync + 1 ≥ cfg.autoSaveInterval
    · simp [UpdatePokedexAndSave, hge, autoSaveIfEnabled_cfg_eq]
    · simp [UpdatePokedexAndSave, hge]
  · by_cases hge : cfg.changesSinceSync + 1 ≥ cfg.autoSaveInterval
    · simp [UpdatePokedexAndSave, hge, autoSaveIfEnabled_cfg_eq]
    · simp only [UpdatePokedexAndSave, hge]
      simp [hge]
      omega
  · intro hge hdis
    simp [commandReleaseAutoSaveBlock, autoSaveIfEnabled, hge, hdis]
  · intro e hge hen hfail
    rw [hen] at hfail
    simp [commandReleaseAutoSaveBlock, autoSaveIfEnabled, hge, hen, hfail,
      savePokedexData_cfg_eq]

/-- Witness for C7 as amended, covering the disabled reset, the
failed-flush reset in UpdatePokedexAndSave, and the commandRelease block
keeping the counter on a failed flush. -/
theorem sync_counter_reset_policy_witness :
    (UpdatePokedexAndSave envOk cfgDisabled0of1 fsEmpty).cfg.changesSinceSync = 0 ∧
    ((UpdatePokedexAndSave envOk cfgDisabled0of1 fsEmpty).cfg.changesSinceSync = 0 ↔
      cfgDisabled0of1.changesSinceSync + 1 ≥ cfgDisabled0of1.autoSaveInterval) ∧
    (commandReleaseAutoSaveBlock envOk cfgDisabled0of1 fsEmpty).cfg.changesSinceSync = 0 ∧
    (commandReleaseAutoSaveBlock envRenameFail cfgEnabled0of1 fsEmpty).cfg.changesSinceSync = 1 ∧
    (commandReleaseAutoSaveBlock envRenameFail cfgEnabled0of1 fsEmpty).result =
      some SaveError.renameFailed := by
  have h1 := sync_counter_reset_policy envOk cfgDisabled0of1 fsEmpty (by decide)
  have h2 := sync_counter_reset_policy envRenameFail cfgEnabled0of1 fsEmpty (by decide)
  have hrel := h1.2.2.1 (by decide) rfl
  have hfail := h2.2.2.2 SaveError.renameFailed (by decide) rfl (by decide)
  refine ⟨?_, h1.2.1, hrel.1, hfail.1, hfail.2⟩
  rw [h1.1]
  decide

end Pokedexcli
